import Mathlib

/-!
Shallow embedding of the analysis core of the AI-Code-Reviewer repository.

The analysis that actually runs is the function `getMockResponse(code)` in
src/frontend/src/services/api.js (the transport falls back to it whenever the
remote call fails).  It takes the raw source text, splits it into lines on the
newline character, runs four pattern rules (hardcoded password, division by
zero, unclosed string, missing colon), pushes a default issue when no rule
fired, and assembles the report object with summary and stats.

Every definition below is translated from that JavaScript source.  JS strings
are modelled as Lean `String`; `code.split('\n')` is modelled by an explicit
structural split on the newline character; `Math.floor(lines * 0.8)` is
modelled as the natural-number floor `lines * 4 / 5` (for inputs of realistic
size the double rounding agrees); `code.length` (UTF-16 units) is modelled as
`String.length` (they agree on the ASCII inputs used throughout).
-/

/-- Severity and category are plain strings in the JS source, kept as such. -/
structure Issue where
  line : Nat
  problem : String
  severity : String
  suggestion : String
  category : String
deriving DecidableEq, Repr

/-- Models the JS object literal `{ HIGH: …, MEDIUM: …, LOW: … }` built at
api.js lines 167-171: all three keys are always present. -/
structure BySeverity where
  HIGH : Nat
  MEDIUM : Nat
  LOW : Nat
deriving DecidableEq, Repr

/-- Models the `summary` object of api.js lines 165-176.  `by_category` is the
JS object built by `reduce`, modelled as an insertion-ordered association
list, exactly mirroring JS string-keyed object insertion order. -/
structure Summary where
  total_issues : Nat
  by_severity : BySeverity
  by_category : List (String × Nat)
deriving DecidableEq, Repr

/-- Models the `stats` object of api.js lines 177-182. -/
structure Stats where
  total_lines : Nat
  code_lines : Nat
  functions : Nat
  characters : Nat
deriving DecidableEq, Repr

/-- The report returned by `getMockResponse`, api.js lines 163-184. -/
structure Report where
  issues : List Issue
  summary : Summary
  stats : Stats
  language : String
deriving DecidableEq, Repr

/-- `charsHasPrefix needle hay`: the char list `needle` is a prefix of `hay`. -/
def charsHasPrefix : List Char → List Char → Bool
  | [], _ => true
  | _ :: _, [] => false
  | n :: ns, h :: hs => n == h && charsHasPrefix ns hs

/-- `charsContains hay needle`: `needle` occurs contiguously in `hay`. -/
def charsContains : List Char → List Char → Bool
  | [], needle => needle.isEmpty
  | h :: hs, needle => charsHasPrefix needle (h :: hs) || charsContains hs needle

/-- Models JS `haystack.includes(needle)` (substring containment). -/
def jsIncludes (haystack needle : String) : Bool :=
  charsContains haystack.toList needle.toList

/-- Split a char list at every newline character; never returns `[]`,
matching JS `split('\n')` which always yields at least one element. -/
def splitCharsNl : List Char → List (List Char)
  | [] => [[]]
  | c :: rest =>
      match splitCharsNl rest with
      | [] => [[]]
      | line :: more =>
          if c == Char.ofNat 10 then [] :: line :: more else (c :: line) :: more

/-- Models JS `code.split('\n')`. -/
def jsSplitNl (code : String) : List String :=
  (splitCharsNl code.toList).map (fun cs => String.mk cs)

/-- Models JS `line.trim()` (whitespace stripped from both ends). -/
def jsTrim (s : String) : String :=
  String.mk (((s.toList.dropWhile Char.isWhitespace).reverse.dropWhile
    Char.isWhitespace).reverse)

/-- Models JS `s.startsWith(pat)`. -/
def jsStarts (s pat : String) : Bool :=
  charsHasPrefix pat.toList s.toList

/-- Models JS `s.endsWith(pat)`. -/
def jsEnds (s pat : String) : Bool :=
  charsHasPrefix pat.toList.reverse s.toList.reverse

/-- Models JS `arr.findIndex(p) + 1`: 1-based index of the first line
satisfying `p`, and `0` when none does (findIndex returns `-1` there). -/
def jsFindIndexPlus1 (p : String → Bool) : List String → Nat
  | [] => 0
  | l :: rest =>
      if p l then 1
      else match jsFindIndexPlus1 p rest with
           | 0 => 0
           | n + 1 => n + 2

/-- Number of occurrences of character `c` in line `l`, modelling
`(line.match(/c/g) || []).length` at api.js line 124. -/
def charCount (l : String) (c : Char) : Nat :=
  (l.toList.filter (fun x => x == c)).length

/-- The guard of api.js line 124: the line has an odd number of double quotes
or an odd number of single quotes. -/
def oddQuotes (l : String) : Bool :=
  charCount l (Char.ofNat 34) % 2 != 0 || charCount l (Char.ofNat 39) % 2 != 0

/-- The guard of api.js lines 137-140: the trimmed line starts with one of
`if `, `for `, `while `, `def ` and does not end with a colon. -/
def missingColon (l : String) : Bool :=
  let stripped := jsTrim l
  (jsStarts stripped "if " || jsStarts stripped "for " ||
   jsStarts stripped "while " || jsStarts stripped "def ") &&
  !(jsEnds stripped ":")

/-- Guard of the hardcoded-password rule, api.js line 100. -/
def condPassword (code : String) : Bool :=
  jsIncludes code "password" && jsIncludes code "="

/-- Guard of the division-by-zero rule, api.js line 110. -/
def condDivision (code : String) : Bool :=
  jsIncludes code "/ 0" || jsIncludes code "/0"

/-- The hardcoded-password issue pushed at api.js lines 101-107; its line is
`findIndex(...) + 1`, which is `0` when no single line contains both
substrings (JS findIndex returns -1 there). -/
def passwordIssue (ls : List String) : Issue :=
  { line := jsFindIndexPlus1 (fun l => jsIncludes l "password" && jsIncludes l "=") ls
  , problem := "Hardcoded password detected"
  , severity := "HIGH"
  , suggestion := "Use environment variables instead: password = os.getenv(\"PASSWORD\")"
  , category := "security" }

/-- The division-by-zero issue pushed at api.js lines 111-118; the
`lineNum || 1` fallback maps a zero line number to 1. -/
def divisionIssue (ls : List String) : Issue :=
  let lineNum := jsFindIndexPlus1 (fun l => jsIncludes l "/ 0" || jsIncludes l "/0") ls
  { line := if lineNum == 0 then 1 else lineNum
  , problem := "Division by zero"
  , severity := "HIGH"
  , suggestion := "Check denominator before division: if denominator != 0:"
  , category := "bug" }

/-- Issue pushed for a line with unbalanced quotes, api.js lines 125-131. -/
def unclosedIssue (line : Nat) : Issue :=
  { line := line
  , problem := "Unclosed string"
  , severity := "HIGH"
  , suggestion := "Add closing quote at the end of the line"
  , category := "syntax" }

/-- Issue pushed for a control line lacking a colon, api.js lines 141-147. -/
def colonIssue (line : Nat) : Issue :=
  { line := line
  , problem := "Missing colon"
  , severity := "HIGH"
  , suggestion := "Add ':' at the end of the line"
  , category := "syntax" }

/-- The default issue pushed when no rule fired, api.js lines 154-160. -/
def defaultIssue : Issue :=
  { line := 1
  , problem := "Consider adding error handling"
  , severity := "LOW"
  , suggestion := "Add try-except blocks for better error handling"
  , category := "best_practice" }

/-- The `forEach` of api.js lines 123-133, with `i` the 0-based index of the
first line of `ls` within the whole file: one unclosed-string issue per line
with unbalanced quotes, in line order. -/
def unclosedIssuesFrom (i : Nat) : List String → List Issue
  | [] => []
  | l :: rest =>
      (if oddQuotes l then [unclosedIssue (i + 1)] else []) ++
      unclosedIssuesFrom (i + 1) rest

/-- The `forEach` of api.js lines 136-150: one missing-colon issue per
offending line, in line order. -/
def colonIssuesFrom (i : Nat) : List String → List Issue
  | [] => []
  | l :: rest =>
      (if missingColon l then [colonIssue (i + 1)] else []) ++
      colonIssuesFrom (i + 1) rest

/-- The issues pushed by the four rules of api.js lines 98-150, in push
order: password, division, unclosed strings, missing colons. -/
def rawIssues (code : String) : List Issue :=
  (if condPassword code then [passwordIssue (jsSplitNl code)] else []) ++
  (if condDivision code then [divisionIssue (jsSplitNl code)] else []) ++
  unclosedIssuesFrom 0 (jsSplitNl code) ++
  colonIssuesFrom 0 (jsSplitNl code)

/-- The final issue list: api.js lines 152-161 push `defaultIssue` exactly
when no rule produced an issue. -/
def issuesOf (code : String) : List Issue :=
  if rawIssues code = [] then [defaultIssue] else rawIssues code

/-- One step of the `reduce` at api.js lines 172-175:
`acc[i.category] = (acc[i.category] || 0) + 1` on an insertion-ordered
string-keyed object. -/
def bumpKey : List (String × Nat) → String → List (String × Nat)
  | [], k => [(k, 1)]
  | (k0, v0) :: rest, k =>
      if k0 == k then (k0, v0 + 1) :: rest else (k0, v0) :: bumpKey rest k

/-- The `by_category` object of api.js lines 172-175. -/
def byCategory (issues : List Issue) : List (String × Nat) :=
  issues.foldl (fun acc i => bumpKey acc i.category) []

/-- The whole of `getMockResponse(code)`, api.js lines 94-185. -/
def getMockResponse (code : String) : Report :=
  let lines := (jsSplitNl code).length
  let issues := issuesOf code
  { issues := issues
  , summary :=
      { total_issues := issues.length
      , by_severity :=
          { HIGH := (issues.filter (fun i => i.severity == "HIGH")).length
          , MEDIUM := (issues.filter (fun i => i.severity == "MEDIUM")).length
          , LOW := (issues.filter (fun i => i.severity == "LOW")).length }
      , by_category := byCategory issues }
  , stats :=
      { total_lines := lines
      , code_lines := lines * 4 / 5
      , functions := lines / 5
      , characters := code.length }
  , language := "python" }

example : (getMockResponse "x").issues = [defaultIssue] := by decide

example : (getMockResponse "a = 1 / 0").issues =
    [{ line := 1, problem := "Division by zero", severity := "HIGH"
     , suggestion := "Check denominator before division: if denominator != 0:"
     , category := "bug" }] := by decide

/-! ## Spec-side definitions used to state claims -/

/-- Formalises the spec's wording for `stats.code_lines` (for the `unknown`
fallback heuristic): lines that are non-blank and whose trimmed text does not
start with `#` or `//`.  This definition follows the spec's words, not the
source, and exists only to be compared against `getMockResponse`. -/
def specCodeLines (ls : List String) : Nat :=
  (ls.filter (fun l =>
    !(jsTrim l == "") && !(jsStarts (jsTrim l) "#") && !(jsStarts (jsTrim l) "//"))).length

/-- The input matches none of the four detection rule patterns of
`getMockResponse`: no hardcoded-password match, no division match, no line
with unbalanced quotes, no control line missing its colon. -/
def noRuleMatch (code : String) : Bool :=
  !condPassword code && !condDivision code &&
  (jsSplitNl code).all (fun l => !oddQuotes l) &&
  (jsSplitNl code).all (fun l => !missingColon l)

/-- Line numbers appear in nondecreasing order along the issue list (the
primary key of the ordering the spec claims). -/
def linesNondecreasing : List Issue → Bool
  | [] => true
  | [_] => true
  | a :: b :: rest => a.line ≤ b.line && linesNondecreasing (b :: rest)

/-- `k` is a key of the insertion-ordered object `l`. -/
def hasKey (l : List (String × Nat)) (k : String) : Bool :=
  l.any (fun p => p.1 == k)

/-- Sum of the values of the insertion-ordered object `l`. -/
def sumVals (l : List (String × Nat)) : Nat :=
  (l.map (fun p => p.2)).sum

/-! ## Claim theorems -/

/-- C6: for every input, the report's `summary.total_issues` equals the
length of its `issues` list. -/
theorem C6_total_issues_eq_length (code : String) :
    (getMockResponse code).summary.total_issues = (getMockResponse code).issues.length :=
  rfl

/-- C9: the analysis is deterministic — `getMockResponse` is a pure function
of the input string alone (no randomness, I/O or clock appears in its
definition), so two runs on equal inputs produce equal reports. -/
theorem C9_deterministic (code₁ code₂ : String) (h : code₁ = code₂) :
    getMockResponse code₁ = getMockResponse code₂ := by
  rw [h]

/-- C9 witness: instantiating determinism at a concrete input. -/
theorem C9_deterministic_witness :
    getMockResponse "x = 1" = getMockResponse "x = 1" :=
  C9_deterministic "x = 1" "x = 1" rfl

/-- C4 counterexample: on input `"zzz"` (no recognizable content, and the
analysis never looks at a filename at all) the report's language is not
`"unknown"` — it is the constant `"python"`. -/
theorem C4_counterexample :
    ¬ ((getMockResponse "zzz").language = "unknown") := by
  decide

/-- C4 amended: the report's `language` field is the constant `"python"`
for every input, regardless of filename or content. -/
theorem C4_amended (code : String) :
    (getMockResponse code).language = "python" :=
  rfl

/-- C5 counterexample: on the two-line input `"x\ny"` (two non-blank,
non-comment lines) the report's `stats.code_lines` is 1, not the 2 the
claim's non-blank non-comment count requires. -/
theorem C5_counterexample :
    ¬ ((getMockResponse "x\ny").stats.code_lines = specCodeLines (jsSplitNl "x\ny")) := by
  decide

/-- C5 amended: `stats.code_lines` is `floor(total_lines * 0.8)` — i.e.
`total_lines * 4 / 5` — not a count of non-blank non-comment lines; in
particular it never exceeds `stats.total_lines`. -/
theorem C5_amended (code : String) :
    (getMockResponse code).stats.code_lines = (getMockResponse code).stats.total_lines * 4 / 5 ∧
    (getMockResponse code).stats.code_lines ≤ (getMockResponse code).stats.total_lines := by
  refine ⟨rfl, ?_⟩
  show (jsSplitNl code).length * 4 / 5 ≤ (jsSplitNl code).length
  omega

/-! ## Membership and counting lemmas -/

theorem mem_unclosedIssuesFrom {i : Nat} {ls : List String} {x : Issue}
    (h : x ∈ unclosedIssuesFrom i ls) :
    x.problem = "Unclosed string" ∧ x.severity = "HIGH" ∧
    i + 1 ≤ x.line ∧ x.line ≤ i + ls.length := by
  induction ls generalizing i with
  | nil => simp [unclosedIssuesFrom] at h
  | cons l rest ih =>
    rw [unclosedIssuesFrom] at h
    rcases List.mem_append.mp h with h1 | h2
    · by_cases hq : oddQuotes l
      · simp [hq] at h1
        subst h1
        refine ⟨rfl, rfl, le_refl _, ?_⟩
        simp [unclosedIssue]
      · simp [hq] at h1
    · obtain ⟨hp, hs, hlo, hhi⟩ := ih h2
      refine ⟨hp, hs, by omega, ?_⟩
      simp only [List.length_cons]
      omega

theorem mem_colonIssuesFrom {i : Nat} {ls : List String} {x : Issue}
    (h : x ∈ colonIssuesFrom i ls) :
    x.problem = "Missing colon" ∧ x.severity = "HIGH" ∧
    i + 1 ≤ x.line ∧ x.line ≤ i + ls.length := by
  induction ls generalizing i with
  | nil => simp [colonIssuesFrom] at h
  | cons l rest ih =>
    rw [colonIssuesFrom] at h
    rcases List.mem_append.mp h with h1 | h2
    · by_cases hq : missingColon l
      · simp [hq] at h1
        subst h1
        refine ⟨rfl, rfl, le_refl _, ?_⟩
        simp [colonIssue]
      · simp [hq] at h1
    · obtain ⟨hp, hs, hlo, hhi⟩ := ih h2
      refine ⟨hp, hs, by omega, ?_⟩
      simp only [List.length_cons]
      omega

theorem mem_rawIssues {code : String} {x : Issue} (h : x ∈ rawIssues code) :
    x = passwordIssue (jsSplitNl code) ∨ x = divisionIssue (jsSplitNl code) ∨
    x ∈ unclosedIssuesFrom 0 (jsSplitNl code) ∨
    x ∈ colonIssuesFrom 0 (jsSplitNl code) := by
  rw [rawIssues] at h
  simp only [List.mem_append] at h
  rcases h with ((h | h) | h) | h
  · left
    revert h
    split <;> simp
  · right; left
    revert h
    split <;> simp
  · right; right; left; exact h
  · right; right; right; exact h

theorem sev_of_mem_issuesOf {code : String} {x : Issue} (h : x ∈ issuesOf code) :
    x.severity = "HIGH" ∨ x.severity = "LOW" := by
  rw [issuesOf] at h
  split at h
  · simp at h
    subst h
    right
    rfl
  · rcases mem_rawIssues h with h | h | h | h
    · left; rw [h]; rfl
    · left; rw [h]; rfl
    · exact Or.inl (mem_unclosedIssuesFrom h).2.1
    · exact Or.inl (mem_colonIssuesFrom h).2.1

theorem filter_sev_partition (l : List Issue)
    (h : ∀ i ∈ l, i.severity = "HIGH" ∨ i.severity = "LOW") :
    (l.filter (fun i => i.severity == "HIGH")).length +
      (l.filter (fun i => i.severity == "MEDIUM")).length +
      (l.filter (fun i => i.severity == "LOW")).length = l.length ∧
    (l.filter (fun i => i.severity == "MEDIUM")).length = 0 := by
  induction l with
  | nil => simp
  | cons a l ih =>
    obtain ⟨ih1, ih2⟩ := ih (fun i hi => h i (List.mem_cons_of_mem a hi))
    have hM : ¬ ((a.severity == "MEDIUM") = true) := by
      rcases h a (List.mem_cons_self a l) with ha | ha <;> rw [ha] <;> decide
    rcases h a (List.mem_cons_self a l) with ha | ha
    · have hH : (a.severity == "HIGH") = true := by rw [ha]; rfl
      have hL : ¬ ((a.severity == "LOW") = true) := by rw [ha]; decide
      rw [@List.filter_cons_of_pos Issue (fun i => i.severity == "HIGH") a l hH,
        @List.filter_cons_of_neg Issue (fun i => i.severity == "MEDIUM") a l hM,
        @List.filter_cons_of_neg Issue (fun i => i.severity == "LOW") a l hL]
      simp only [List.length_cons]
      omega
    · have hH : ¬ ((a.severity == "HIGH") = true) := by rw [ha]; decide
      have hL : (a.severity == "LOW") = true := by rw [ha]; rfl
      rw [@List.filter_cons_of_neg Issue (fun i => i.severity == "HIGH") a l hH,
        @List.filter_cons_of_neg Issue (fun i => i.severity == "MEDIUM") a l hM,
        @List.filter_cons_of_pos Issue (fun i => i.severity == "LOW") a l hL]
      simp only [List.length_cons]
      omega

theorem sumVals_bumpKey (acc : List (String × Nat)) (k : String) :
    sumVals (bumpKey acc k) = sumVals acc + 1 := by
  induction acc with
  | nil => rfl
  | cons p rest ih =>
    obtain ⟨k0, v0⟩ := p
    by_cases h : (k0 == k)
    · simp [bumpKey, h, sumVals]
      omega
    · simp only [bumpKey, h, if_neg]
      simp [sumVals] at ih ⊢
      omega

theorem sumVals_foldl_bump (l : List Issue) :
    ∀ acc, sumVals (l.foldl (fun acc i => bumpKey acc i.category) acc) =
      sumVals acc + l.length := by
  induction l with
  | nil => intro acc; simp
  | cons a l ih =>
    intro acc
    simp only [List.foldl_cons, List.length_cons, ih, sumVals_bumpKey]
    omega

/-- C7: the three `by_severity` counts sum to `total_issues`, and the values
of `by_category` sum to `total_issues`. -/
theorem C7_sums_eq_total (code : String) :
    (getMockResponse code).summary.by_severity.HIGH +
      (getMockResponse code).summary.by_severity.MEDIUM +
      (getMockResponse code).summary.by_severity.LOW =
      (getMockResponse code).summary.total_issues ∧
    sumVals (getMockResponse code).summary.by_category =
      (getMockResponse code).summary.total_issues := by
  constructor
  · exact (filter_sev_partition (issuesOf code)
      (fun i hi => sev_of_mem_issuesOf hi)).1
  · show sumVals (byCategory (issuesOf code)) = (issuesOf code).length
    rw [byCategory, sumVals_foldl_bump]
    simp [sumVals]

/-- C10: every issue the analysis emits has severity `"HIGH"` or `"LOW"` —
never `"MEDIUM"` — and the report's `by_severity.MEDIUM` count is 0. -/
theorem C10_no_medium (code : String) :
    (∀ i ∈ (getMockResponse code).issues,
      i.severity = "HIGH" ∨ i.severity = "LOW") ∧
    (getMockResponse code).summary.by_severity.MEDIUM = 0 := by
  constructor
  · intro i hi
    exact sev_of_mem_issuesOf hi
  · exact (filter_sev_partition (issuesOf code)
      (fun i hi => sev_of_mem_issuesOf hi)).2

/-- C10 witness: the theorem applied at the concrete input `"x"` and the
concrete member `defaultIssue` of its issue list. -/
theorem C10_no_medium_witness :
    (defaultIssue.severity = "HIGH" ∨ defaultIssue.severity = "LOW") ∧
    (getMockResponse "x").summary.by_severity.MEDIUM = 0 :=
  ⟨(C10_no_medium "x").1 defaultIssue (by decide), (C10_no_medium "x").2⟩

/-! ## C8: issue line-number bounds -/

/-- C8: the claim fails on the code.  On the input `"password\n="` the
whole-file guard fires (the file contains both `password` and `=`) but no
single line contains both, so `findIndex` returns -1 and the emitted
hardcoded-password issue carries line number 0, below the claimed lower
bound 1; `stats.total_lines` is 2 there. -/
theorem C8_line_zero_at_failing_input :
    (getMockResponse "password\n=").issues.map (fun i => i.line) = [0] ∧
    (getMockResponse "password\n=").stats.total_lines = 2 := by
  decide

/-! ## C3: report shape -/

theorem hasKey_bumpKey (acc : List (String × Nat)) (k0 k : String) :
    hasKey (bumpKey acc k0) k = (hasKey acc k || (k0 == k)) := by
  induction acc with
  | nil => simp [bumpKey, hasKey]
  | cons p rest ih =>
    obtain ⟨k1, v1⟩ := p
    by_cases h : (k1 == k0)
    · have hk : k1 = k0 := eq_of_beq h
      subst hk
      simp only [bumpKey, h, if_pos]
      cases h0 : (k1 == k) <;> simp [hasKey, h0]
    · simp only [bumpKey, h, if_neg, Bool.false_eq_true, not_false_eq_true]
      simp [hasKey] at ih ⊢
      rw [ih]
      cases h1 : (k1 == k) <;> simp

theorem hasKey_foldl_bump (l : List Issue) :
    ∀ acc k, hasKey (l.foldl (fun acc i => bumpKey acc i.category) acc) k =
      (hasKey acc k || l.any (fun i => i.category == k)) := by
  induction l with
  | nil => intro acc k; simp
  | cons a l ih =>
    intro acc k
    simp only [List.foldl_cons, List.any_cons, ih, hasKey_bumpKey]
    cases hasKey acc k <;> cases h1 : (a.category == k) <;> simp

/-- C3 counterexample: on input `"x"` the only issue is the default
`best_practice` one, and the report's `by_category` object has no `"bug"`
key at all — zero-count categories are omitted, not present with value 0. -/
theorem C3_counterexample :
    hasKey (getMockResponse "x").summary.by_category "bug" = false := by
  decide

/-- C3 amended: `by_severity` always carries all three severity keys (the
object literal fixes its shape), but `by_category` carries exactly the
categories that occur among the issues: a key is present iff some issue has
that category, so zero-count categories are omitted. -/
theorem C3_amended (code k : String) :
    hasKey (getMockResponse code).summary.by_category k =
      (getMockResponse code).issues.any (fun i => i.category == k) := by
  show hasKey (byCategory (issuesOf code)) k =
    (issuesOf code).any (fun i => i.category == k)
  rw [byCategory, hasKey_foldl_bump]
  simp [hasKey]

/-! ## C1: behaviour when no rule pattern matches -/

theorem unclosedIssuesFrom_eq_nil {ls : List String}
    (h : ∀ l ∈ ls, oddQuotes l = false) :
    ∀ i, unclosedIssuesFrom i ls = [] := by
  induction ls with
  | nil => intro i; rfl
  | cons l rest ih =>
    intro i
    rw [unclosedIssuesFrom, h l (List.mem_cons_self l rest),
      ih (fun x hx => h x (List.mem_cons_of_mem l hx)) (i + 1)]
    simp

theorem colonIssuesFrom_eq_nil {ls : List String}
    (h : ∀ l ∈ ls, missingColon l = false) :
    ∀ i, colonIssuesFrom i ls = [] := by
  induction ls with
  | nil => intro i; rfl
  | cons l rest ih =>
    intro i
    rw [colonIssuesFrom, h l (List.mem_cons_self l rest),
      ih (fun x hx => h x (List.mem_cons_of_mem l hx)) (i + 1)]
    simp

theorem splitCharsNl_ne_nil (cs : List Char) : splitCharsNl cs ≠ [] := by
  induction cs with
  | nil => simp [splitCharsNl]
  | cons c rest ih =>
    rw [splitCharsNl]
    cases hr : splitCharsNl rest with
    | nil => exact absurd hr ih
    | cons line more =>
      split
      · simp
      · split <;> simp

theorem one_le_jsSplitNl_length (code : String) : 1 ≤ (jsSplitNl code).length := by
  rw [jsSplitNl, List.length_map]
  exact List.length_pos.mpr (splitCharsNl_ne_nil code.toList)

theorem rawIssues_eq_nil_of_noRuleMatch {code : String}
    (h : noRuleMatch code = true) : rawIssues code = [] := by
  rw [noRuleMatch] at h
  simp only [Bool.and_eq_true, Bool.not_eq_true', List.all_eq_true] at h
  obtain ⟨⟨⟨hpw, hdv⟩, hq⟩, hc⟩ := h
  rw [rawIssues, hpw, hdv,
    unclosedIssuesFrom_eq_nil (fun l hl => by simpa using hq l hl) 0,
    colonIssuesFrom_eq_nil (fun l hl => by simpa using hc l hl) 0]
  simp

/-- C1 counterexample: the input `"x"` matches none of the rule patterns,
yet the issue list is not empty and `total_issues` is not 0 — the code
pushes a default demo issue instead. -/
theorem C1_counterexample :
    noRuleMatch "x" = true ∧ (getMockResponse "x").issues ≠ [] ∧
    (getMockResponse "x").summary.total_issues ≠ 0 := by
  decide

/-- C1 amended: for every input matching none of the detection rule
patterns, the report holds exactly the single default LOW `best_practice`
issue at line 1, `total_issues = 1`, `by_severity = {HIGH 0, MEDIUM 0,
LOW 1}`, `by_category = {best_practice 1}`, and stats are still populated
(`total_lines` is at least 1). -/
theorem C1_amended (code : String) (h : noRuleMatch code = true) :
    (getMockResponse code).issues = [defaultIssue] ∧
    (getMockResponse code).summary.total_issues = 1 ∧
    (getMockResponse code).summary.by_severity = ⟨0, 0, 1⟩ ∧
    (getMockResponse code).summary.by_category = [("best_practice", 1)] ∧
    1 ≤ (getMockResponse code).stats.total_lines := by
  have hraw : rawIssues code = [] := rawIssues_eq_nil_of_noRuleMatch h
  have hiss : issuesOf code = [defaultIssue] := by
    rw [issuesOf, if_pos hraw]
  refine ⟨hiss, ?_, ?_, ?_, ?_⟩
  · show (issuesOf code).length = 1
    rw [hiss]
    rfl
  · show (⟨((issuesOf code).filter (fun i => i.severity == "HIGH")).length,
      ((issuesOf code).filter (fun i => i.severity == "MEDIUM")).length,
      ((issuesOf code).filter (fun i => i.severity == "LOW")).length⟩ : BySeverity) =
      ⟨0, 0, 1⟩
    rw [hiss]
    decide
  · show byCategory (issuesOf code) = [("best_practice", 1)]
    rw [hiss]
    decide
  · exact one_le_jsSplitNl_length code

/-- C1 witness: the amended theorem applied at the concrete no-match input
`"y = 2"`. -/
theorem C1_amended_witness :
    noRuleMatch "y = 2" = true ∧ (getMockResponse "y = 2").issues = [defaultIssue] :=
  ⟨by decide, (C1_amended "y = 2" (by decide)).1⟩

/-! ## C2: issue ordering -/

/-- Rank of the rule that emitted an issue, identified by its problem
string: password 0, division 1, unclosed string 2, missing colon 3,
default 4. -/
def ruleRank (x : Issue) : Nat :=
  if x.problem = "Hardcoded password detected" then 0
  else if x.problem = "Division by zero" then 1
  else if x.problem = "Unclosed string" then 2
  else if x.problem = "Missing colon" then 3
  else 4

/-- The order in which the analysis actually emits issues: by rule rank,
and by ascending line number within one rule. -/
def issueLe (a b : Issue) : Prop :=
  ruleRank a < ruleRank b ∨ (ruleRank a = ruleRank b ∧ a.line ≤ b.line)

theorem ruleRank_passwordIssue (ls : List String) :
    ruleRank (passwordIssue ls) = 0 := rfl

theorem ruleRank_divisionIssue (ls : List String) :
    ruleRank (divisionIssue ls) = 1 := rfl

theorem ruleRank_of_unclosed {x : Issue} (h : x.problem = "Unclosed string") :
    ruleRank x = 2 := by
  unfold ruleRank
  rw [h]
  decide

theorem ruleRank_of_colon {x : Issue} (h : x.problem = "Missing colon") :
    ruleRank x = 3 := by
  unfold ruleRank
  rw [h]
  decide

theorem eq_of_mem_ite_singleton {c : Bool} {x y : Issue}
    (h : x ∈ if c = true then [y] else []) : x = y := by
  split at h
  · simpa using h
  · simp at h

theorem pairwise_line_unclosedFrom (ls : List String) :
    ∀ i, List.Pairwise (fun a b : Issue => a.line ≤ b.line)
      (unclosedIssuesFrom i ls) := by
  induction ls with
  | nil => intro i; exact List.Pairwise.nil
  | cons l rest ih =>
    intro i
    rw [unclosedIssuesFrom]
    apply List.pairwise_append.mpr
    refine ⟨?_, ih (i + 1), ?_⟩
    · split <;> simp
    · intro a ha b hb
      have hb2 := (mem_unclosedIssuesFrom hb).2.2.1
      have ha2 : a = unclosedIssue (i + 1) := by
        revert ha
        split
        · intro ha; simpa using ha
        · intro ha; simp at ha
      rw [ha2]
      show i + 1 ≤ b.line
      omega

theorem pairwise_line_colonFrom (ls : List String) :
    ∀ i, List.Pairwise (fun a b : Issue => a.line ≤ b.line)
      (colonIssuesFrom i ls) := by
  induction ls with
  | nil => intro i; exact List.Pairwise.nil
  | cons l rest ih =>
    intro i
    rw [colonIssuesFrom]
    apply List.pairwise_append.mpr
    refine ⟨?_, ih (i + 1), ?_⟩
    · split <;> simp
    · intro a ha b hb
      have hb2 := (mem_colonIssuesFrom hb).2.2.1
      have ha2 : a = colonIssue (i + 1) := by
        revert ha
        split
        · intro ha; simpa using ha
        · intro ha; simp at ha
      rw [ha2]
      show i + 1 ≤ b.line
      omega

theorem pairwise_issueLe_unclosedFrom (i : Nat) (ls : List String) :
    List.Pairwise issueLe (unclosedIssuesFrom i ls) := by
  refine (pairwise_line_unclosedFrom ls i).imp_of_mem ?_
  intro a b ha hb hab
  right
  exact ⟨by rw [ruleRank_of_unclosed (mem_unclosedIssuesFrom ha).1,
    ruleRank_of_unclosed (mem_unclosedIssuesFrom hb).1], hab⟩

theorem pairwise_issueLe_colonFrom (i : Nat) (ls : List String) :
    List.Pairwise issueLe (colonIssuesFrom i ls) := by
  refine (pairwise_line_colonFrom ls i).imp_of_mem ?_
  intro a b ha hb hab
  right
  exact ⟨by rw [ruleRank_of_colon (mem_colonIssuesFrom ha).1,
    ruleRank_of_colon (mem_colonIssuesFrom hb).1], hab⟩

theorem pairwise_rawIssues (code : String) :
    List.Pairwise issueLe (rawIssues code) := by
  have hrank2 : ∀ b ∈ unclosedIssuesFrom 0 (jsSplitNl code), ruleRank b = 2 :=
    fun b hb => ruleRank_of_unclosed (mem_unclosedIssuesFrom hb).1
  have hrank3 : ∀ b ∈ colonIssuesFrom 0 (jsSplitNl code), ruleRank b = 3 :=
    fun b hb => ruleRank_of_colon (mem_colonIssuesFrom hb).1
  rw [rawIssues]
  apply List.pairwise_append.mpr
  refine ⟨?_, pairwise_issueLe_colonFrom 0 _, ?_⟩
  · apply List.pairwise_append.mpr
    refine ⟨?_, pairwise_issueLe_unclosedFrom 0 _, ?_⟩
    · apply List.pairwise_append.mpr
      refine ⟨?_, ?_, ?_⟩
      · split <;> simp
      · split <;> simp
      · intro a ha b hb
        have ha2 : a = passwordIssue (jsSplitNl code) := eq_of_mem_ite_singleton ha
        have hb2 : b = divisionIssue (jsSplitNl code) := eq_of_mem_ite_singleton hb
        left
        rw [ha2, hb2, ruleRank_passwordIssue, ruleRank_divisionIssue]
        omega
    · intro a ha b hb
      left
      rw [hrank2 b hb]
      rcases List.mem_append.mp ha with ha | ha
      · rw [eq_of_mem_ite_singleton ha, ruleRank_passwordIssue]
        omega
      · rw [eq_of_mem_ite_singleton ha, ruleRank_divisionIssue]
        omega
  · intro a ha b hb
    left
    rw [hrank3 b hb]
    rcases List.mem_append.mp ha with ha | ha
    · rcases List.mem_append.mp ha with ha | ha
      · rw [eq_of_mem_ite_singleton ha, ruleRank_passwordIssue]
        omega
      · rw [eq_of_mem_ite_singleton ha, ruleRank_divisionIssue]
        omega
    · rw [hrank2 a ha]
      omega

/-- C2 counterexample: on the input whose first line is a lone double quote
and whose second line is `password =`, the emitted list is the password
issue (line 2) followed by the unclosed-string issue (line 1): line numbers
are not in ascending order, refuting the claimed sort. -/
theorem C2_counterexample :
    linesNondecreasing (getMockResponse "\"\npassword =").issues = false := by
  decide

/-- C2 amended: the issue list is ordered by emitting rule (hardcoded
password, then division by zero, then unclosed strings, then missing
colons, then the default issue), with ascending line numbers within one
rule — it is not sorted by line number across rules. -/
theorem C2_amended (code : String) :
    List.Pairwise issueLe (getMockResponse code).issues := by
  show List.Pairwise issueLe (issuesOf code)
  rw [issuesOf]
  split
  · simp
  · exact pairwise_rawIssues code
